import Mathlib

/-!
Shallow embedding of the `tracing-ts` span/event tracing core
(`src/index.ts`).

The TypeScript module keeps three pieces of process-wide mutable state
(`globalSubscriber`, `spanIdCounter`, `currentSpan`); we model them in an
explicit `TraceState` record threaded through every operation.  Subscriber
callbacks (`onSpanEnter` / `onSpanExit` / `onEvent`) are modelled as
appends to a notification log inside the state, which is exactly what a
collecting subscriber observes; `Date.now()` is modelled by a fixed clock
value plus a counter of clock reads, so that "no timestamp is taken" is an
observable property.  JavaScript runtime values appearing in fields and
options objects are modelled by the inductive `JVal`; a JS object is an
insertion-ordered association list.
-/

namespace TracingTs

/-- A JavaScript runtime value as it can appear in `Fields` / options. -/
inductive JVal where
  | str (s : String)
  | int (n : Int)
  | arr (vs : List JVal)
  | obj (kvs : List (String × JVal))
deriving Repr

/-- `Fields = Record<string, unknown>`: insertion-ordered key/value mapping. -/
abbrev Fields := List (String × JVal)

/-- `enum Level { TRACE = 0, DEBUG = 1, INFO = 2, WARN = 3, ERROR = 4 }`. -/
inductive Level where
  | TRACE
  | DEBUG
  | INFO
  | WARN
  | ERROR
deriving DecidableEq, Repr

/-- Numeric value of a level, as declared in the TS enum. -/
def Level.toNat : Level → Nat
  | .TRACE => 0
  | .DEBUG => 1
  | .INFO => 2
  | .WARN => 3
  | .ERROR => 4

/-- `interface Metadata { level; target?; file?; line? }`.  The optional
entries hold whatever runtime value the caller supplied. -/
structure Metadata where
  level : Level
  target : Option JVal := none
  file : Option JVal := none
  line : Option JVal := none
deriving Repr

/-- `Partial<Metadata>`: every entry optional, as passed to the `Span`
constructor and to `recordEvent`. -/
structure MetadataPatch where
  level : Option Level := none
  target : Option JVal := none
  file : Option JVal := none
  line : Option JVal := none
deriving Repr

/-- `interface SpanContext` — recursive through the optional `parent`
back-reference, hence an inductive. -/
inductive SpanContext where
  | mk (id : Nat) (name : String) (metadata : Metadata) (fields : Fields)
      (parent : Option SpanContext) (startTime : Nat)
deriving Repr

def SpanContext.id : SpanContext → Nat
  | .mk i _ _ _ _ _ => i

def SpanContext.name : SpanContext → String
  | .mk _ n _ _ _ _ => n

def SpanContext.metadata : SpanContext → Metadata
  | .mk _ _ m _ _ _ => m

def SpanContext.fields : SpanContext → Fields
  | .mk _ _ _ f _ _ => f

def SpanContext.parent : SpanContext → Option SpanContext
  | .mk _ _ _ _ p _ => p

def SpanContext.startTime : SpanContext → Nat
  | .mk _ _ _ _ _ t => t

/-- `interface Event`. -/
structure Event where
  metadata : Metadata
  message : String
  fields : JVal
  span : Option SpanContext := none
  timestamp : Nat
deriving Repr

/-- The subscriber's pure filter predicate; the three notification
callbacks are modelled by the notification log in `TraceState`. -/
structure Subscriber where
  enabledFn : Metadata → Bool

/-- One subscriber callback invocation, as recorded by the log. -/
inductive Notification where
  | spanEnter (ctx : SpanContext)
  | spanExit (ctx : SpanContext)
  | onEvent (e : Event)
deriving Repr

/-- The module-level mutable state of `src/index.ts`, plus the
observation instruments (`clock`/`clockReads` for `Date.now()`, `log` for
subscriber callbacks). -/
structure TraceState where
  globalSubscriber : Option Subscriber := none
  spanIdCounter : Nat := 0
  currentSpan : Option SpanContext := none
  clock : Nat := 0
  clockReads : Nat := 0
  log : List Notification := []

/-- The state at module load: `globalSubscriber = null`,
`spanIdCounter = 0`, `currentSpan = undefined`. -/
def initState : TraceState := {}

/-- `Date.now()`: returns the clock and counts the read. -/
def readNow (st : TraceState) : Nat × TraceState :=
  (st.clock, { st with clockReads := st.clockReads + 1 })

/-- `globalSubscriber?.onXxx(...)`: appends to the log when a subscriber
is installed, otherwise does nothing. -/
def notify (n : Notification) (st : TraceState) : TraceState :=
  match st.globalSubscriber with
  | some _ => { st with log := st.log ++ [n] }
  | none => st

/-- `export function setGlobalSubscriber(subscriber)`. -/
def setGlobalSubscriber (subscriber : Subscriber) (st : TraceState) : TraceState :=
  { st with globalSubscriber := some subscriber }

/-- `export function currentSpanContext()`. -/
def currentSpanContext (st : TraceState) : Option SpanContext :=
  st.currentSpan

/-- `'k' in o` for a JS object. -/
def hasKey (o : Fields) (k : String) : Bool :=
  o.any (fun p => p.1 == k)

/-- `o.k` for a JS object: the value at the first occurrence of the key. -/
def getKey (o : Fields) (k : String) : Option JVal :=
  (o.find? (fun p => p.1 == k)).map (fun p => p.2)

/-- `{ ...o, k: v }`: overwrite `k` in place when present (JS spread
keeps the original key position), otherwise append it. -/
def setKey (o : Fields) (k : String) (v : JVal) : Fields :=
  if hasKey o k then
    o.map (fun p => if p.1 == k then (p.1, v) else p)
  else
    o ++ [(k, v)]

/-- `class Span`: the mutable handle wrapping one `SpanContext`. -/
structure Span where
  context : SpanContext
  previousSpan : Option SpanContext := none
  entered : Bool := false

/-- The `Span` constructor: allocates the next id (`++spanIdCounter`),
captures `currentSpan` as `parent`, takes `startTime = Date.now()`. -/
def Span.construct (name : String) (fields : Fields) (metadata : MetadataPatch)
    (st : TraceState) : Span × TraceState :=
  let id := st.spanIdCounter + 1
  let st1 := { st with spanIdCounter := id }
  let (t, st2) := readNow st1
  let ctx : SpanContext := .mk id name
    { level := metadata.level.getD Level.INFO
      target := metadata.target
      file := metadata.file
      line := metadata.line }
    fields st2.currentSpan t
  ({ context := ctx }, st2)

/-- `export function span(name, fields = {}, metadata = {})`. -/
def span (name : String) (fields : Fields) (metadata : MetadataPatch)
    (st : TraceState) : Span × TraceState :=
  Span.construct name fields metadata st

/-- `Span.enter()`. -/
def Span.enter (sp : Span) (st : TraceState) : Span × TraceState :=
  if sp.entered then (sp, st)
  else
    let sp1 := { sp with entered := true, previousSpan := st.currentSpan }
    let st1 := { st with currentSpan := some sp.context }
    (sp1, notify (.spanEnter sp.context) st1)

/-- `Span.exit()`. -/
def Span.exit (sp : Span) (st : TraceState) : Span × TraceState :=
  if sp.entered then
    let st1 := notify (.spanExit sp.context) st
    ({ sp with entered := false }, { st1 with currentSpan := sp.previousSpan })
  else (sp, st)

/-- `Span.run(fn)`: enter, run `fn`, exit in a `finally`.  The body is a
state transformer returning `Except`: `Except.error` models a thrown
error, and the `finally` semantics is that `exit` runs on both outcomes
before the result reaches the caller. -/
def Span.run {ε α : Type} (sp : Span) (fn : TraceState → Except ε α × TraceState)
    (st : TraceState) : Except ε α × Span × TraceState :=
  let (sp1, st1) := Span.enter sp st
  let (r, st2) := fn st1
  let (sp2, st3) := Span.exit sp1 st2
  (r, sp2, st3)

/-- `Span.runAsync(fn)`: same contract as `run` on a single
non-interleaved logical timeline, which is how the embedding models the
cooperative scheduler. -/
def Span.runAsync {ε α : Type} (sp : Span) (fn : TraceState → Except ε α × TraceState)
    (st : TraceState) : Except ε α × Span × TraceState :=
  let (sp1, st1) := Span.enter sp st
  let (r, st2) := fn st1
  let (sp2, st3) := Span.exit sp1 st2
  (r, sp2, st3)

/-- `Span.getContext()`. -/
def Span.getContext (sp : Span) : SpanContext :=
  sp.context

/-- `globalSubscriber?.enabled(md)` coerced to boolean: `false` when no
subscriber is installed (optional chaining yields `undefined`, which is
falsy). -/
def enabledCheck (st : TraceState) (md : Metadata) : Bool :=
  match st.globalSubscriber with
  | some sub => sub.enabledFn md
  | none => false

/-- `function recordEvent(level, message, fields = {}, metadata = {})`.
The `fields` argument is the raw runtime value forwarded from
`normalizeLogOptions` (possibly `undefined`, in which case the TS default
`{}` applies).  The `Event` is constructed, and `Date.now()` read, only
after the `enabled` check passes. -/
def recordEvent (level : Level) (message : String) (fields : Option JVal)
    (metadata : MetadataPatch) (st : TraceState) : TraceState :=
  let fullMetadata : Metadata :=
    { level := level
      target := metadata.target
      file := metadata.file
      line := metadata.line }
  match st.globalSubscriber with
  | none => st
  | some sub =>
    if sub.enabledFn fullMetadata then
      let (t, st1) := readNow st
      let event : Event :=
        { metadata := fullMetadata
          message := message
          fields := fields.getD (.obj [])
          span := st1.currentSpan
          timestamp := t }
      { st1 with log := st1.log ++ [.onEvent event] }
    else st

/-- The result shape of `normalizeLogOptions`: `{ target?, fields? }`,
each entry the raw runtime value read off the options object. -/
structure NormalizedOptions where
  target : Option JVal := none
  fields : Option JVal := none
deriving Repr

/-- `function normalizeLogOptions(options?)`: duck-typed disambiguation —
an object containing key `target` or key `fields` (by key presence) is the
structured `LogOptions` shape; otherwise the whole object is a bare field
mapping. -/
def normalizeLogOptions (options : Option Fields) : NormalizedOptions :=
  match options with
  | none => {}
  | some o =>
    if hasKey o "target" || hasKey o "fields" then
      { target := getKey o "target", fields := getKey o "fields" }
    else
      { fields := some (.obj o) }

/-- `export function trace(message, options?)`. -/
def trace (message : String) (options : Option Fields) (st : TraceState) : TraceState :=
  let opts := normalizeLogOptions options
  recordEvent Level.TRACE message opts.fields { target := opts.target } st

/-- `export function debug(message, options?)`. -/
def debug (message : String) (options : Option Fields) (st : TraceState) : TraceState :=
  let opts := normalizeLogOptions options
  recordEvent Level.DEBUG message opts.fields { target := opts.target } st

/-- `export function info(message, options?)`. -/
def info (message : String) (options : Option Fields) (st : TraceState) : TraceState :=
  let opts := normalizeLogOptions options
  recordEvent Level.INFO message opts.fields { target := opts.target } st

/-- `export function warn(message, options?)`. -/
def warn (message : String) (options : Option Fields) (st : TraceState) : TraceState :=
  let opts := normalizeLogOptions options
  recordEvent Level.WARN message opts.fields { target := opts.target } st

/-- `export function error(message, options?)`. -/
def error (message : String) (options : Option Fields) (st : TraceState) : TraceState :=
  let opts := normalizeLogOptions options
  recordEvent Level.ERROR message opts.fields { target := opts.target } st

/-- `export function instrument(name, fn, fields?)`: the wrapped function.
Per invocation: `const s = span(name, { ...fields, args });
return s.run(() => fn(...args));`. -/
def instrument {ε α : Type} (name : String)
    (fn : List JVal → TraceState → Except ε α × TraceState)
    (fields : Option Fields) :
    List JVal → TraceState → Except ε α × TraceState :=
  fun args st =>
    let (s, st1) := span name (setKey (fields.getD []) "args" (.arr args)) {} st
    let (r, _, st2) := Span.run s (fn args) st1
    (r, st2)

/-- `export function instrumentAsync(name, fn, fields?)`: identical but
through `runAsync`. -/
def instrumentAsync {ε α : Type} (name : String)
    (fn : List JVal → TraceState → Except ε α × TraceState)
    (fields : Option Fields) :
    List JVal → TraceState → Except ε α × TraceState :=
  fun args st =>
    let (s, st1) := span name (setKey (fields.getD []) "args" (.arr args)) {} st
    let (r, _, st2) := Span.runAsync s (fn args) st1
    (r, st2)

/-! Observation helpers used by the theorems. -/

/-- Number of `onSpanEnter` callbacks in a log. -/
def countEnter (l : List Notification) : Nat :=
  (l.filter (fun n => match n with | .spanEnter _ => true | _ => false)).length

/-- Number of `onSpanExit` callbacks in a log. -/
def countExit (l : List Notification) : Nat :=
  (l.filter (fun n => match n with | .spanExit _ => true | _ => false)).length

/-- Number of `onEvent` callbacks in a log. -/
def countOnEvent (l : List Notification) : Nat :=
  (l.filter (fun n => match n with | .onEvent _ => true | _ => false)).length

/-- The span ids announced by `onSpanEnter` callbacks, in order. -/
def spanIdsOfLog (l : List Notification) : List Nat :=
  l.filterMap (fun n => match n with | .spanEnter c => some c.id | _ => none)

/-- A subscriber that accepts every level (a collecting subscriber). -/
def allSub : Subscriber := { enabledFn := fun _ => true }

/-- Ids handed out by `n` consecutive `Span` constructions. -/
def constructSeq : Nat → TraceState → List Nat
  | 0, _ => []
  | n + 1, st =>
    let (s, st1) := Span.construct "s" [] {} st
    s.context.id :: constructSeq n st1

/-- Fixed concrete inputs used by the witness theorems. -/
def wSub : TraceState := setGlobalSubscriber allSub initState

def wSpan : Span := (Span.construct "w" [] {} wSub).1

theorem spanIdsOfLog_append (l1 l2 : List Notification) :
    spanIdsOfLog (l1 ++ l2) = spanIdsOfLog l1 ++ spanIdsOfLog l2 := by
  simp [spanIdsOfLog]

/-- Writing a key with `{ ...o, k: v }` semantics and reading it back
yields the written value, whether or not the key was present. -/
theorem getKey_setKey (o : Fields) (k : String) (v : JVal) :
    getKey (setKey o k v) k = some v := by
  induction o with
  | nil => simp [setKey, hasKey, getKey]
  | cons p rest ih =>
    by_cases hp : p.1 = k
    · simp [setKey, hasKey, getKey, hp]
    · have hstep : setKey (p :: rest) k v = p :: setKey rest k v := by
        by_cases hr : (rest.any fun q => q.1 == k) = true <;>
          simp [setKey, hasKey, hp, hr]
      rw [hstep]
      simpa [getKey, hp] using ih

/-- C1: after `exit()`, the Current-Span State equals the Current-Span
State that existed immediately before that span's most recent `enter()` —
for any intermediate state, and in particular for a strictly nested
enter A / enter B / exit B / exit A sequence the final Current-Span State
equals the one before the first enter. -/
theorem exit_restores_pre_enter_state :
    (∀ (sp : Span) (st st' : TraceState), sp.entered = false →
        (Span.exit (Span.enter sp st).1 st').2.currentSpan = st.currentSpan)
  ∧ (∀ (A B : Span) (st0 : TraceState), A.entered = false → B.entered = false →
        (let p1 := Span.enter A st0
         let p2 := Span.enter B p1.2
         let p3 := Span.exit p2.1 p2.2
         let p4 := Span.exit p1.1 p3.2
         p4.2.currentSpan = st0.currentSpan)) := by
  constructor
  · intro sp st st' h
    simp [Span.enter, Span.exit, notify, h]
  · intro A B st0 hA hB
    simp [Span.enter, Span.exit, notify, hA, hB]

theorem exit_restores_pre_enter_state_witness :
    wSpan.entered = false
  ∧ (Span.exit (Span.enter wSpan wSub).1
        (Span.enter wSpan wSub).2).2.currentSpan = wSub.currentSpan :=
  ⟨rfl, exit_restores_pre_enter_state.1 wSpan wSub (Span.enter wSpan wSub).2 rfl⟩

/-- C3: `enter()` / `exit()` idempotence — a second `enter()` in a row is
a no-op returning the handle and only one `onSpanEnter` is emitted; a
second `exit()` in a row is a no-op and only one `onSpanExit` is emitted;
exiting a never-entered span is a no-op; after an enter/exit round trip
the handle is re-usable and entering again emits a fresh notification. -/
theorem enter_exit_idempotent (sp : Span) (st : TraceState)
    (hsub : st.globalSubscriber.isSome = true) :
    (sp.entered = false →
        Span.enter (Span.enter sp st).1 (Span.enter sp st).2 = Span.enter sp st
      ∧ (Span.enter sp st).2.log = st.log ++ [Notification.spanEnter sp.context])
  ∧ (sp.entered = true →
        Span.exit (Span.exit sp st).1 (Span.exit sp st).2 = Span.exit sp st
      ∧ (Span.exit sp st).2.log = st.log ++ [Notification.spanExit sp.context])
  ∧ (sp.entered = false → Span.exit sp st = (sp, st))
  ∧ (sp.entered = false →
        (let p := Span.exit (Span.enter sp st).1 (Span.enter sp st).2
         p.1.entered = false
       ∧ (Span.enter p.1 p.2).2.log = p.2.log ++ [Notification.spanEnter sp.context])) := by
  obtain ⟨sub, hs⟩ := Option.isSome_iff_exists.mp hsub
  refine ⟨?_, ?_, ?_, ?_⟩
  · intro h
    simp [Span.enter, notify, h, hs]
  · intro h
    simp [Span.exit, notify, h, hs]
  · intro h
    simp [Span.exit, h]
  · intro h
    simp [Span.enter, Span.exit, notify, h, hs]

theorem enter_exit_idempotent_witness :
    wSub.globalSubscriber.isSome = true
  ∧ ((wSpan.entered = false →
        Span.enter (Span.enter wSpan wSub).1 (Span.enter wSpan wSub).2
          = Span.enter wSpan wSub
      ∧ (Span.enter wSpan wSub).2.log
          = wSub.log ++ [Notification.spanEnter wSpan.context])
  ∧ (wSpan.entered = true →
        Span.exit (Span.exit wSpan wSub).1 (Span.exit wSpan wSub).2
          = Span.exit wSpan wSub
      ∧ (Span.exit wSpan wSub).2.log
          = wSub.log ++ [Notification.spanExit wSpan.context])
  ∧ (wSpan.entered = false → Span.exit wSpan wSub = (wSpan, wSub))
  ∧ (wSpan.entered = false →
        (let p := Span.exit (Span.enter wSpan wSub).1 (Span.enter wSpan wSub).2
         p.1.entered = false
       ∧ (Span.enter p.1 p.2).2.log
           = p.2.log ++ [Notification.spanEnter wSpan.context]))) :=
  ⟨rfl, enter_exit_idempotent wSpan wSub rfl⟩

/-- C8: with no subscriber installed, `enter`/`exit` emit no notification
but still perform their state transitions (Current-Span State set on
enter, restored on exit, `entered` flag flipped), and event recording
leaves the state untouched — no `Event` is constructed and no clock read
is taken, because the `enabled` check short-circuits. -/
theorem no_subscriber_silent (sp : Span) (st : TraceState)
    (h : st.globalSubscriber = none) :
    (sp.entered = false →
        Span.enter sp st
          = ({ sp with entered := true, previousSpan := st.currentSpan },
             { st with currentSpan := some sp.context }))
  ∧ (sp.entered = true →
        Span.exit sp st
          = ({ sp with entered := false },
             { st with currentSpan := sp.previousSpan }))
  ∧ (∀ (level : Level) (msg : String) (fields : Option JVal) (md : MetadataPatch),
        recordEvent level msg fields md st = st) := by
  refine ⟨?_, ?_, ?_⟩
  · intro he
    simp [Span.enter, notify, he, h]
  · intro he
    simp [Span.exit, notify, he, h]
  · intro level msg fields md
    simp [recordEvent, h]

theorem no_subscriber_silent_witness :
    (initState : TraceState).globalSubscriber = none
  ∧ ((wSpan.entered = false →
        Span.enter wSpan initState
          = ({ wSpan with entered := true, previousSpan := initState.currentSpan },
             { initState with currentSpan := some wSpan.context }))
  ∧ (wSpan.entered = true →
        Span.exit wSpan initState
          = ({ wSpan with entered := false },
             { initState with currentSpan := wSpan.previousSpan }))
  ∧ (∀ (level : Level) (msg : String) (fields : Option JVal) (md : MetadataPatch),
        recordEvent level msg fields md initState = initState)) :=
  ⟨rfl, no_subscriber_silent wSpan initState rfl⟩

/-- C4: the identifier allocator is strictly increasing from 1 with no
gaps — each construction returns `counter + 1` and bumps the counter to
it, no other operation touches the counter, and `n` consecutive
constructions from any state yield the ids
`counter + 1, counter + 2, …, counter + n`; from the initial state the
first id is `1` and the sequence is `[1, …, n]`, so no id is ever
reused. -/
theorem span_ids_strictly_increasing :
    (∀ (name : String) (fields : Fields) (md : MetadataPatch) (st : TraceState),
        (Span.construct name fields md st).1.context.id = st.spanIdCounter + 1
      ∧ (Span.construct name fields md st).2.spanIdCounter = st.spanIdCounter + 1)
  ∧ (∀ (sp : Span) (st : TraceState),
        (Span.enter sp st).2.spanIdCounter = st.spanIdCounter
      ∧ (Span.exit sp st).2.spanIdCounter = st.spanIdCounter)
  ∧ (∀ (level : Level) (msg : String) (fields : Option JVal) (md : MetadataPatch)
        (st : TraceState),
        (recordEvent level msg fields md st).spanIdCounter = st.spanIdCounter)
  ∧ (∀ (n : Nat) (st : TraceState),
        constructSeq n st = List.range' (st.spanIdCounter + 1) n)
  ∧ (∀ (name : String) (fields : Fields) (md : MetadataPatch),
        (Span.construct name fields md initState).1.context.id = 1)
  ∧ (∀ n : Nat, (constructSeq n initState).Nodup) := by
  have hconstruct : ∀ (name : String) (fields : Fields) (md : MetadataPatch)
      (st : TraceState),
      (Span.construct name fields md st).1.context.id = st.spanIdCounter + 1
    ∧ (Span.construct name fields md st).2.spanIdCounter = st.spanIdCounter + 1 := by
    intro name fields md st
    constructor <;> rfl
  have hseq : ∀ (n : Nat) (st : TraceState),
      constructSeq n st = List.range' (st.spanIdCounter + 1) n := by
    intro n
    induction n with
    | zero => intro st; rfl
    | succ m ih =>
      intro st
      rw [constructSeq, List.range'];
      exact congrArg _ (ih _)
  refine ⟨hconstruct, ?_, ?_, hseq, ?_, ?_⟩
  · intro sp st
    constructor
    · by_cases h : sp.entered <;> simp [Span.enter, notify, h]
      cases st.globalSubscriber <;> simp
    · by_cases h : sp.entered <;> simp [Span.exit, notify, h]
      cases st.globalSubscriber <;> simp
  · intro level msg fields md st
    rcases h : st.globalSubscriber with _ | sub
    · simp [recordEvent, h]
    · cases hen : sub.enabledFn ⟨level, md.target, md.file, md.line⟩ <;>
        simp [recordEvent, h, hen, readNow]
  · intro name fields md
    exact (hconstruct name fields md initState).1
  · intro n
    rw [hseq]
    exact List.nodup_range' _ _

/-- C2: `run(work)` enters, executes `work`, and exits on every exit
path: the result (value or re-raised error) is exactly `work`'s result,
the handle ends not-entered, exactly one `onSpanExit` is appended after
`work`'s own effects (so the exit precedes the error reaching the
caller), and the Current-Span State is restored to its pre-`run` value
on both outcomes. -/
theorem run_exits_on_every_path {ε α : Type} (sp : Span)
    (fn : TraceState → Except ε α × TraceState) (st : TraceState)
    (hfresh : sp.entered = false)
    (hsub : ((fn (Span.enter sp st).2).2.globalSubscriber).isSome = true) :
    (Span.run sp fn st).1 = (fn (Span.enter sp st).2).1
  ∧ (Span.run sp fn st).2.1.entered = false
  ∧ (Span.run sp fn st).2.2.log
      = (fn (Span.enter sp st).2).2.log ++ [Notification.spanExit sp.context]
  ∧ (Span.run sp fn st).2.2.currentSpan = st.currentSpan := by
  obtain ⟨sub, hs⟩ := Option.isSome_iff_exists.mp hsub
  refine ⟨rfl, ?_, ?_, ?_⟩ <;>
    simp_all [Span.run, Span.enter, Span.exit, notify, hfresh]

/-- The body `() => { throw X }`: touches no state and raises `X`. -/
def throwFn (x : String) : TraceState → Except String Unit × TraceState :=
  fun st => (Except.error x, st)

theorem run_exits_on_every_path_witness :
    wSpan.entered = false
  ∧ ((throwFn "X" (Span.enter wSpan wSub).2).2.globalSubscriber).isSome = true
  ∧ ((Span.run wSpan (throwFn "X") wSub).1 = (throwFn "X" (Span.enter wSpan wSub).2).1
  ∧ (Span.run wSpan (throwFn "X") wSub).2.1.entered = false
  ∧ (Span.run wSpan (throwFn "X") wSub).2.2.log
      = (throwFn "X" (Span.enter wSpan wSub).2).2.log
          ++ [Notification.spanExit wSpan.context]
  ∧ (Span.run wSpan (throwFn "X") wSub).2.2.currentSpan = wSub.currentSpan) :=
  ⟨rfl, rfl, run_exits_on_every_path wSpan (throwFn "X") wSub rfl rfl⟩

/-- C5: the event recorder short-circuits on the `enabled` filter — when
the check fails (no subscriber, or `enabled(metadata)` false) the state
is returned untouched: no `Event` is constructed, no clock read is
taken, `onEvent` is not invoked; when it passes, exactly one clock read
and one `onEvent` notification with the assembled `Event` occur.
`onEvent` fires exactly when a subscriber is installed and its
`enabled(metadata)` returns true. -/
theorem recordEvent_short_circuit (level : Level) (msg : String)
    (fields : Option JVal) (md : MetadataPatch) (st : TraceState) :
    (let fullMetadata : Metadata :=
      { level := level, target := md.target, file := md.file, line := md.line }
     (enabledCheck st fullMetadata = false →
        recordEvent level msg fields md st = st)
   ∧ (enabledCheck st fullMetadata = true →
        recordEvent level msg fields md st
          = { st with
                clockReads := st.clockReads + 1
                log := st.log ++ [Notification.onEvent
                  { metadata := fullMetadata
                    message := msg
                    fields := fields.getD (JVal.obj [])
                    span := st.currentSpan
                    timestamp := st.clock }] })
   ∧ countOnEvent (recordEvent level msg fields md st).log
       = countOnEvent st.log + (if enabledCheck st fullMetadata then 1 else 0)
   ∧ (enabledCheck st fullMetadata = true
        ↔ ∃ sub, st.globalSubscriber = some sub
            ∧ sub.enabledFn fullMetadata = true)) := by
  rcases h : st.globalSubscriber with _ | sub
  · refine ⟨fun _ => by simp [recordEvent, h], fun hc => ?_, ?_, ?_⟩
    · simp [enabledCheck, h] at hc
    · simp [recordEvent, enabledCheck, h]
    · simp [enabledCheck, h]
  · cases hen : sub.enabledFn ⟨level, md.target, md.file, md.line⟩
    · refine ⟨fun _ => by simp [recordEvent, h, hen], fun hc => ?_, ?_, ?_⟩
      · simp [enabledCheck, h, hen] at hc
      · simp [recordEvent, enabledCheck, countOnEvent, h, hen]
      · simp [enabledCheck, h, hen]
    · refine ⟨fun hc => by simp [enabledCheck, h, hen] at hc, fun _ => ?_, ?_, ?_⟩
      · simp [recordEvent, readNow, h, hen]
      · simp [recordEvent, enabledCheck, countOnEvent, readNow, h, hen]
      · simp [enabledCheck, h, hen]

theorem recordEvent_short_circuit_witness :
    enabledCheck initState { level := Level.INFO } = false
  ∧ recordEvent Level.INFO "m" none {} initState = initState :=
  ⟨rfl, (recordEvent_short_circuit Level.INFO "m" none {} initState).1 rfl⟩

/-- C6: the `Span` constructor snapshots the construction-time
Current-Span State into `parent`, changes only the id counter and the
clock-read count (no notification, no Current-Span change), the handle's
context — hence its `parent` — is never replaced by `enter`/`exit`, and a
span constructed while an outer span is entered has the outer context as
parent. -/
theorem construct_parent_snapshot (name : String) (fields : Fields)
    (md : MetadataPatch) (st : TraceState) :
    (Span.construct name fields md st).1.context.parent = st.currentSpan
  ∧ (Span.construct name fields md st).2
      = { st with
            spanIdCounter := st.spanIdCounter + 1
            clockReads := st.clockReads + 1 }
  ∧ (∀ sp : Span,
        (Span.enter sp st).1.context = sp.context
      ∧ (Span.exit sp st).1.context = sp.context)
  ∧ (∀ outer : Span, outer.entered = false →
        (Span.construct name fields md (Span.enter outer st).2).1.context.parent
          = some outer.context) := by
  refine ⟨rfl, rfl, ?_, ?_⟩
  · intro sp
    constructor
    · by_cases h : sp.entered <;> simp [Span.enter, h]
    · by_cases h : sp.entered <;> simp [Span.exit, h]
  · intro outer h
    simp [Span.construct, Span.enter, notify, readNow, h]
    cases (({ st with currentSpan := some outer.context } :
        TraceState)).globalSubscriber
    all_goals simp [SpanContext.parent]

theorem construct_parent_snapshot_witness :
    (Span.construct "c" [] {} wSub).1.context.parent = wSub.currentSpan
  ∧ (Span.construct "c" [] {} wSub).2
      = { wSub with
            spanIdCounter := wSub.spanIdCounter + 1
            clockReads := wSub.clockReads + 1 }
  ∧ (∀ sp : Span,
        (Span.enter sp wSub).1.context = sp.context
      ∧ (Span.exit sp wSub).1.context = sp.context)
  ∧ (∀ outer : Span, outer.entered = false →
        (Span.construct "c" [] {} (Span.enter outer wSub).2).1.context.parent
          = some outer.context) :=
  construct_parent_snapshot "c" [] {} wSub

/-- C7: duck-typed options disambiguation — an options object containing
key `target` or key `fields` (by key presence) is read as the structured
`{target?, fields?}` shape, any other object is taken whole as a bare
field mapping with target unset; every level emitter routes through this
normalization; and `info` on the bare mapping `{target: "x"}` yields an
event with `metadata.target = "x"` and empty fields, not a field named
`target`. -/
theorem options_disambiguation :
    (∀ o : Fields, (hasKey o "target" || hasKey o "fields") = true →
        normalizeLogOptions (some o)
          = { target := getKey o "target", fields := getKey o "fields" })
  ∧ (∀ o : Fields, (hasKey o "target" || hasKey o "fields") = false →
        normalizeLogOptions (some o) = { fields := some (JVal.obj o) })
  ∧ (∀ (msg : String) (options : Option Fields) (st : TraceState),
        (let opts := normalizeLogOptions options
         trace msg options st
             = recordEvent Level.TRACE msg opts.fields { target := opts.target } st
       ∧ debug msg options st
             = recordEvent Level.DEBUG msg opts.fields { target := opts.target } st
       ∧ info msg options st
             = recordEvent Level.INFO msg opts.fields { target := opts.target } st
       ∧ warn msg options st
             = recordEvent Level.WARN msg opts.fields { target := opts.target } st
       ∧ error msg options st
             = recordEvent Level.ERROR msg opts.fields { target := opts.target } st))
  ∧ (∀ (msg : String) (st : TraceState),
        enabledCheck st { level := Level.INFO, target := some (JVal.str "x") } = true →
        info msg (some [("target", JVal.str "x")]) st
          = { st with
                clockReads := st.clockReads + 1
                log := st.log ++ [Notification.onEvent
                  { metadata := { level := Level.INFO, target := some (JVal.str "x") }
                    message := msg
                    fields := JVal.obj []
                    span := st.currentSpan
                    timestamp := st.clock }] }) := by
  refine ⟨?_, ?_, ?_, ?_⟩
  · intro o h
    simp [normalizeLogOptions, h]
  · intro o h
    simp [normalizeLogOptions, h]
  · intro msg options st
    exact ⟨rfl, rfl, rfl, rfl, rfl⟩
  · intro msg st h
    rcases hs : st.globalSubscriber with _ | sub
    · simp [enabledCheck, hs] at h
    · simp only [enabledCheck, hs] at h
      simp [info, normalizeLogOptions, hasKey, getKey, recordEvent, readNow, hs, h]

theorem options_disambiguation_witness :
    enabledCheck wSub { level := Level.INFO, target := some (JVal.str "x") } = true
  ∧ info "m" (some [("target", JVal.str "x")]) wSub
      = { wSub with
            clockReads := wSub.clockReads + 1
            log := wSub.log ++ [Notification.onEvent
              { metadata := { level := Level.INFO, target := some (JVal.str "x") }
                message := "m"
                fields := JVal.obj []
                span := wSub.currentSpan
                timestamp := wSub.clock }] } :=
  ⟨rfl, options_disambiguation.2.2.2 "m" wSub rfl⟩

/-- The instrumented body `(x) => x + 1` on JS numbers, as a pure state
transformer: raises on an arity or type mismatch, touches no tracing
state. -/
def incFn : List JVal → TraceState → Except Unit JVal × TraceState :=
  fun args st =>
    (match args with
      | [JVal.int x] => Except.ok (JVal.int (x + 1))
      | _ => Except.error (), st)

/-- The final state of `instrument("f", (x)=>x+1)` applied to `41` twice
from the initial state with a collecting subscriber. -/
def instrumentTwiceState : TraceState :=
  let f := instrument "f" incFn none
  let (_, s1) := f [JVal.int 41] wSub
  (f [JVal.int 41] s1).2

/-- C9, counterexample: two consecutive calls of the wrapped function
produce spans with ids 1 and 2 — one apart, not two apart as claimed. -/
theorem instrument_ids_two_apart_counterexample :
    spanIdsOfLog instrumentTwiceState.log = [1, 2]
  ∧ ¬ (2 = 1 + 2) :=
  ⟨rfl, by decide⟩

/-- C9 (amended: consecutive ids are exactly ONE apart, not two): each
invocation of the wrapped function constructs a new span whose id is the
next counter value and whose fields are `extraFields` merged with an
`args` entry holding the call's argument list, returns the body's result
(or re-raises its error) through the scoped-execution contract, and — for
a body that does not touch tracing state — two consecutive calls with no
interleaved span creation enter spans with consecutive ids, one apart;
calling on argument `41` gives an `args` field equal to `[41]`. -/
theorem instrument_per_invocation {ε α : Type} (name : String)
    (fn : List JVal → TraceState → Except ε α × TraceState)
    (fields : Option Fields) (args : List JVal) (st : TraceState) :
    (let s := (span name (setKey (fields.getD []) "args" (JVal.arr args)) {} st).1
     s.context.id = st.spanIdCounter + 1
   ∧ getKey s.context.fields "args" = some (JVal.arr args)
   ∧ (instrument name fn fields args st).1
       = (fn args (Span.enter s
           (span name (setKey (fields.getD []) "args" (JVal.arr args)) {} st).2).2).1)
  ∧ ((∀ as s, fn as s = ((fn as s).1, s)) → st.globalSubscriber.isSome = true →
       spanIdsOfLog
           ((instrument name fn fields args
               ((instrument name fn fields args st).2)).2).log
         = spanIdsOfLog st.log ++ [st.spanIdCounter + 1, st.spanIdCounter + 2])
  ∧ getKey (setKey (fields.getD []) "args" (JVal.arr [JVal.int 41])) "args"
      = some (JVal.arr [JVal.int 41]) := by
  refine ⟨⟨rfl, getKey_setKey _ _ _, rfl⟩, ?_, getKey_setKey _ _ _⟩
  intro hpure hsub
  obtain ⟨sub, hs⟩ := Option.isSome_iff_exists.mp hsub
  have h2 : ∀ (as : List JVal) (s : TraceState), (fn as s).2 = s :=
    fun as s => congrArg Prod.snd (hpure as s)
  simp [instrument, span, Span.construct, Span.run, Span.enter, Span.exit,
    notify, readNow, h2, hs, spanIdsOfLog_append, spanIdsOfLog, SpanContext.id]

theorem instrument_per_invocation_witness :
    wSub.globalSubscriber.isSome = true
  ∧ spanIdsOfLog
        ((instrument "f" incFn none [JVal.int 41]
            ((instrument "f" incFn none [JVal.int 41] wSub).2)).2).log
      = spanIdsOfLog wSub.log ++ [wSub.spanIdCounter + 1, wSub.spanIdCounter + 2] :=
  ⟨rfl,
    (instrument_per_invocation "f" incFn none [JVal.int 41] wSub).2.1
      (fun _ _ => rfl) rfl⟩

/-- C10: every construction path that supplies no explicit metadata level
(the `Span` constructor with `level` absent, the `span()` factory, and
the `instrument` / `instrumentAsync` wrappers, which pass `metadata = {}`)
produces a context whose `metadata.level` is `INFO`, whose numeric enum
value is 2. -/
theorem metadata_level_defaults_info (name : String) (fields : Fields)
    (md : MetadataPatch) (st : TraceState) (h : md.level = none) :
    (Span.construct name fields md st).1.context.metadata.level = Level.INFO
  ∧ (span name fields md st).1.context.metadata.level = Level.INFO
  ∧ (∀ (extra : Option Fields) (args : List JVal),
        (span name (setKey (extra.getD []) "args" (JVal.arr args)) {}
            st).1.context.metadata.level = Level.INFO)
  ∧ (∀ (ε α : Type) (fn : List JVal → TraceState → Except ε α × TraceState)
        (fs : Option Fields) (args : List JVal),
        instrumentAsync name fn fs args st = instrument name fn fs args st)
  ∧ Level.INFO.toNat = 2 := by
  refine ⟨?_, ?_, ?_, fun ε α fn fs args => rfl, rfl⟩
  · simp [Span.construct, readNow, h, SpanContext.metadata]
  · simp [span, Span.construct, readNow, h, SpanContext.metadata]
  · intro extra args
    simp [span, Span.construct, readNow, SpanContext.metadata]

theorem metadata_level_defaults_info_witness :
    ({} : MetadataPatch).level = none
  ∧ ((Span.construct "w" [] {} initState).1.context.metadata.level = Level.INFO
  ∧ (span "w" [] {} initState).1.context.metadata.level = Level.INFO
  ∧ (∀ (extra : Option Fields) (args : List JVal),
        (span "w" (setKey (extra.getD []) "args" (JVal.arr args)) {}
            initState).1.context.metadata.level = Level.INFO)
  ∧ (∀ (ε α : Type) (fn : List JVal → TraceState → Except ε α × TraceState)
        (fs : Option Fields) (args : List JVal),
        instrumentAsync "w" fn fs args initState = instrument "w" fn fs args initState)
  ∧ Level.INFO.toNat = 2) :=
  ⟨rfl, metadata_level_defaults_info "w" [] {} initState rfl⟩

end TracingTs
